import Mathlib

/-!
Verification development for the tabular aggregation core of
`python/model_report.py` (classes `ModelReport` and `ADMReport`).

The dataframe pipeline is shallowly embedded over Lean lists:
a pandas dataframe is a `List` of typed row structures, dataframe
column operations become maps/filters over those lists, timestamps are
integers (`dateOf` truncates a timestamp to its calendar day), floats
are `Rat`, and missing values (NaN) are `Option.none`.  Pandas
`sort_values` (default `kind='quicksort'`) guarantees only a
permutation of the rows sorted by the key, not the order of equal
keys: `sortByKey`, a stable insertion sort, gives one admissible
output, and statements that depend on the order of ties quantify over
every sorted permutation instead.  Python exceptions are
`Except String`.
-/

namespace CDH

/-- Stable insertion of `a` into `l`, placing `a` before the first
element whose key is not smaller.  Building block of the model of
pandas `sort_values`. -/
def insertByKey (key : α → Int) (a : α) : List α → List α
  | [] => [a]
  | b :: bs => if key a ≤ key b then a :: b :: bs else b :: insertByKey key a bs

/-- Stable insertion sort by an integer key: one admissible result of
pandas `sort_values(column)`, whose default quicksort guarantees only
sortedness, not the order of equal keys.  Statements that depend on
the order of ties quantify over every sorted permutation instead of
this function. -/
def sortByKey (key : α → Int) : List α → List α
  | [] => []
  | a :: as => insertByKey key a (sortByKey key as)

/-- Keep, for every distinct string key, only the last row of the list
having that key, preserving list order: the model of pandas
`groupby(key).tail(1)`. -/
def dedupLastBy (k : α → String) : List α → List α
  | [] => []
  | a :: as =>
    if as.any (fun b => k b == k a) then dedupLastBy k as
    else a :: dedupLastBy k as

/-- Maximum of a list of integers: the model of pandas `max()` /
`transform(max)`.  The empty case yields 0 and is unreachable on the
program's paths: `heatmapWindowE` errors first on an empty frame,
as the source does. -/
def maxIntList : List Int → Int
  | [] => 0
  | [x] => x
  | x :: y :: xs => max x (maxIntList (y :: xs))

theorem mem_insertByKey (key : α → Int) (a b : α) (l : List α) :
    b ∈ insertByKey key a l ↔ b = a ∨ b ∈ l := by
  induction l with
  | nil => simp [insertByKey]
  | cons c cs ih =>
    by_cases h : key a ≤ key c
    · simp [insertByKey, h]
    · simp [insertByKey, h, ih]
      tauto

theorem perm_insertByKey (key : α → Int) (a : α) (l : List α) :
    List.Perm (insertByKey key a l) (a :: l) := by
  induction l with
  | nil => simp [insertByKey]
  | cons c cs ih =>
    by_cases h : key a ≤ key c
    · simp [insertByKey, h]
    · simp only [insertByKey, if_neg h]
      exact (ih.cons c).trans (List.Perm.swap a c cs)

theorem perm_sortByKey (key : α → Int) (l : List α) :
    List.Perm (sortByKey key l) l := by
  induction l with
  | nil => simp [sortByKey]
  | cons a as ih =>
    exact (perm_insertByKey key a (sortByKey key as)).trans (ih.cons a)

theorem mem_sortByKey (key : α → Int) (a : α) (l : List α) :
    a ∈ sortByKey key l ↔ a ∈ l :=
  (perm_sortByKey key l).mem_iff

theorem pairwise_insertByKey (key : α → Int) (a : α) (l : List α)
    (h : l.Pairwise (fun x y => key x ≤ key y)) :
    (insertByKey key a l).Pairwise (fun x y => key x ≤ key y) := by
  induction l with
  | nil => simp [insertByKey]
  | cons c cs ih =>
    rcases List.pairwise_cons.mp h with ⟨hc, hcs⟩
    by_cases hle : key a ≤ key c
    · rw [insertByKey, if_pos hle]
      refine List.pairwise_cons.mpr ⟨?_, h⟩
      intro b hb
      rcases List.mem_cons.mp hb with hb | hb
      · rw [hb]; exact hle
      · exact le_trans hle (hc b hb)
    · rw [insertByKey, if_neg hle]
      refine List.pairwise_cons.mpr ⟨?_, ih hcs⟩
      intro b hb
      rcases (mem_insertByKey key a b cs).mp hb with hb | hb
      · exact le_of_lt (by subst hb; exact lt_of_not_le hle)
      · exact hc b hb

theorem pairwise_sortByKey (key : α → Int) (l : List α) :
    (sortByKey key l).Pairwise (fun x y => key x ≤ key y) := by
  induction l with
  | nil => simp [sortByKey]
  | cons a as ih => exact pairwise_insertByKey key a (sortByKey key as) ih

theorem filter_key_insertByKey (key : α → Int) (a : α) (l : List α) (t : Int) :
    (insertByKey key a l).filter (fun b => key b == t)
      = if key a == t then a :: l.filter (fun b => key b == t)
        else l.filter (fun b => key b == t) := by
  induction l with
  | nil => by_cases h : key a == t <;> simp [insertByKey, List.filter, h]
  | cons c cs ih =>
    by_cases hle : key a ≤ key c
    · by_cases h : key a == t <;> simp [insertByKey, hle, List.filter_cons, h]
    · have hlt : key c < key a := lt_of_not_le hle
      by_cases h : key a == t
      · have hc : (key c == t) = false := by
          have : key a = t := by simpa using h
          have : key c ≠ t := by omega
          simpa using this
        simp [insertByKey, hle, List.filter_cons, h, hc, ih]
      · simp [insertByKey, hle, List.filter_cons, h, ih]

/-- Stability of the sort model: the subsequence of rows having any
fixed key value is untouched by sorting. -/
theorem filter_key_sortByKey (key : α → Int) (l : List α) (t : Int) :
    (sortByKey key l).filter (fun b => key b == t)
      = l.filter (fun b => key b == t) := by
  induction l with
  | nil => simp [sortByKey]
  | cons a as ih =>
    rw [sortByKey, filter_key_insertByKey, ih]
    by_cases h : key a == t <;> simp [List.filter_cons, h]

theorem mem_of_mem_dedupLastBy (k : α → String) (l : List α) (a : α)
    (h : a ∈ dedupLastBy k l) : a ∈ l := by
  induction l with
  | nil => simp [dedupLastBy] at h
  | cons b bs ih =>
    by_cases hb : bs.any (fun c => k c == k b)
    · simp only [dedupLastBy, if_pos hb] at h
      exact List.mem_cons_of_mem b (ih h)
    · simp only [dedupLastBy, if_neg hb] at h
      rcases List.mem_cons.mp h with h | h
      · simp [h]
      · exact List.mem_cons_of_mem b (ih h)

theorem getLastQ_cons_ne {l : List α} (a : α) (h : l ≠ []) :
    (a :: l).getLast? = l.getLast? := by
  cases l with
  | nil => exact absurd rfl h
  | cons b bs => exact List.getLast?_cons_cons

theorem getLastQ_ne_nil {l : List α} {a : α} (h : l.getLast? = some a) :
    l ≠ [] := by
  intro hn
  subst hn
  simp at h

theorem mem_of_getLastQ {l : List α} {a : α} (h : l.getLast? = some a) :
    a ∈ l := by
  induction l with
  | nil => simp at h
  | cons b bs ih =>
    cases bs with
    | nil => simp_all
    | cons c cs =>
      rw [List.getLast?_cons_cons] at h
      exact List.mem_cons_of_mem b (ih h)

theorem any_key_iff_filter_ne_nil (k : α → String) (l : List α) (n : String) :
    l.any (fun b => k b == n) = true ↔ l.filter (fun b => k b == n) ≠ [] := by
  rw [List.any_eq_true]
  constructor
  · rintro ⟨b, hb, hbn⟩ hnil
    have := List.filter_eq_nil_iff.mp hnil b hb
    exact this hbn
  · intro hne
    rcases List.exists_mem_of_ne_nil _ hne with ⟨b, hb⟩
    rcases List.mem_filter.mp hb with ⟨hbl, hbn⟩
    exact ⟨b, hbl, hbn⟩

/-- Characterisation of `dedupLastBy`: for any key value, keeping the
last row per key leaves exactly the last input row of that key value. -/
theorem filter_dedupLastBy (k : α → String) (l : List α) (n : String) :
    (dedupLastBy k l).filter (fun b => k b == n)
      = (l.filter (fun b => k b == n)).getLast?.toList := by
  induction l with
  | nil => simp [dedupLastBy]
  | cons a as ih =>
    by_cases ha : as.any (fun b => k b == k a) = true
    · rw [dedupLastBy, if_pos ha]
      by_cases hn : (k a == n) = true
      · have hka : k a = n := by simpa using hn
        have hne : as.filter (fun b => k b == n) ≠ [] := by
          rw [← hka]
          exact (any_key_iff_filter_ne_nil k as (k a)).mp ha
        rw [ih, List.filter_cons, if_pos hn, getLastQ_cons_ne a hne]
      · rw [ih, List.filter_cons, if_neg (by simpa using hn)]
    · rw [dedupLastBy, if_neg ha]
      by_cases hn : (k a == n) = true
      · have hka : k a = n := by simpa using hn
        have hnil : as.filter (fun b => k b == n) = [] := by
          by_contra hne
          rw [← hka] at hne
          exact ha ((any_key_iff_filter_ne_nil k as (k a)).mpr hne)
        have hd : (dedupLastBy k as).filter (fun b => k b == n) = [] := by
          apply List.filter_eq_nil_iff.mpr
          intro b hb
          exact List.filter_eq_nil_iff.mp hnil b (mem_of_mem_dedupLastBy k as b hb)
        rw [List.filter_cons, if_pos hn, List.filter_cons, if_pos hn, hd, hnil]
        simp
      · rw [List.filter_cons, if_neg (by simpa using hn), ih,
          List.filter_cons, if_neg (by simpa using hn)]

/-- A member of `dedupLastBy` is the last row of the list carrying its
key value. -/
theorem getLastQ_of_mem_dedupLastBy (k : α → String) (l : List α) (r : α)
    (h : r ∈ dedupLastBy k l) :
    (l.filter (fun b => k b == k r)).getLast? = some r := by
  have hr : r ∈ (dedupLastBy k l).filter (fun b => k b == k r) :=
    List.mem_filter.mpr ⟨h, by simp⟩
  rw [filter_dedupLastBy] at hr
  cases ho : (l.filter (fun b => k b == k r)).getLast? with
  | none => rw [ho] at hr; simp at hr
  | some z =>
    rw [ho] at hr
    simp only [Option.toList_some, List.mem_singleton] at hr
    rw [hr]

/-- When a key value occurs in the list, `dedupLastBy` keeps exactly
one row with that key value. -/
theorem countP_dedupLastBy (k : α → String) (l : List α) (n : String)
    (h : ∃ r ∈ l, k r = n) :
    (dedupLastBy k l).countP (fun b => k b == n) = 1 := by
  rcases h with ⟨r, hrl, hrn⟩
  have hne : l.filter (fun b => k b == n) ≠ [] := by
    intro hnil
    exact (List.filter_eq_nil_iff.mp hnil r hrl) (by simpa using hrn)
  rw [List.countP_eq_length_filter, filter_dedupLastBy]
  cases ho : (l.filter (fun b => k b == n)).getLast? with
  | none =>
    cases hl : l.filter (fun b => k b == n) with
    | nil => exact absurd hl hne
    | cons x xs => rw [hl] at ho; simp [List.getLast?] at ho
  | some z => simp

/-- The last element of a list sorted (non-strictly) by a key bounds
every element's key from above. -/
theorem key_le_getLast_of_pairwise (key : α → Int) (l : List α) (z : α)
    (hs : l.Pairwise (fun x y => key x ≤ key y))
    (hz : l.getLast? = some z) :
    ∀ a ∈ l, key a ≤ key z := by
  induction l with
  | nil => simp at hz
  | cons b bs ih =>
    intro a ha
    cases bs with
    | nil =>
      simp only [List.getLast?_singleton, Option.some_inj] at hz
      rcases List.mem_singleton.mp ha with h
      rw [h, hz]
    | cons c cs =>
      rw [List.getLast?_cons_cons] at hz
      rcases List.pairwise_cons.mp hs with ⟨hb, hbs⟩
      rcases List.mem_cons.mp ha with ha | ha
      · have hzl : z ∈ c :: cs := mem_of_getLastQ hz
        rw [ha]
        exact hb z hzl
      · exact ih hbs hz a ha

/-- Filtering by a predicate satisfied by the last element keeps it
last. -/
theorem getLastQ_filter (p : α → Bool) (l : List α) (z : α)
    (hz : l.getLast? = some z) (hp : p z = true) :
    (l.filter p).getLast? = some z := by
  induction l with
  | nil => simp at hz
  | cons a as ih =>
    cases as with
    | nil =>
      simp only [List.getLast?_singleton, Option.some_inj] at hz
      subst hz
      simp [List.filter, hp]
    | cons b bs =>
      rw [List.getLast?_cons_cons] at hz
      have htail := ih hz
      have hzm : z ∈ (b :: bs).filter p :=
        List.mem_filter.mpr ⟨mem_of_getLastQ hz, hp⟩
      have hne2 : (b :: bs).filter p ≠ [] := List.ne_nil_of_mem hzm
      rw [List.filter_cons]
      by_cases hap : p a = true
      · rw [if_pos hap, getLastQ_cons_ne a hne2, htail]
      · rw [if_neg hap, htail]

theorem le_maxIntList (l : List Int) (a : Int) (h : a ∈ l) :
    a ≤ maxIntList l := by
  induction l with
  | nil => simp at h
  | cons x xs ih =>
    cases xs with
    | nil =>
      rcases List.mem_singleton.mp h with rfl
      simp [maxIntList]
    | cons y ys =>
      rw [maxIntList]
      rcases List.mem_cons.mp h with h | h
      · rw [h]; exact le_max_left _ _
      · exact le_trans (ih h) (le_max_right _ _)

theorem maxIntList_mem (l : List Int) (h : l ≠ []) : maxIntList l ∈ l := by
  induction l with
  | nil => exact absurd rfl h
  | cons x xs ih =>
    cases xs with
    | nil => simp [maxIntList]
    | cons y ys =>
      rw [maxIntList]
      rcases max_choice x (maxIntList (y :: ys)) with hm | hm
      · rw [hm]; exact List.mem_cons_self _ _
      · rw [hm]; exact List.mem_cons_of_mem x (ih (by simp))

theorem maxIntList_const (l : List Int) (d : Int) (hne : l ≠ [])
    (h : ∀ x ∈ l, x = d) : maxIntList l = d :=
  h (maxIntList l) (maxIntList_mem l hne)

/-- Truncate an integer timestamp (in seconds) to its calendar day:
the model of building the `Date` column from `model snapshot` via
`i.date()`. -/
def dateOf (t : Int) : Int := Int.fdiv t 86400

/-- Row of `ModelReport.dfModel`: columns `model ID`, `model name`,
`positives`, `responses`, `model performance`, `model snapshot` and
the derived `success rate (%)` column (0 until
`calculate_success_rate` fills it). -/
structure ModelRow where
  modelID : String
  modelName : String
  positives : Int
  responses : Int
  performance : Rat
  snapshot : Int
  successRate : Rat
deriving DecidableEq

/-- Row of a model dataframe after `_apply_query` dropped the
`model ID` column. -/
structure QRow where
  modelName : String
  positives : Int
  responses : Int
  performance : Rat
  snapshot : Int
  successRate : Rat
deriving DecidableEq

/-- `ModelReport._calculate_success_rate`: assigns the rate column to
0, then to `pos*100.0/total` on the rows with `total > 0`, then to 0
on the rows with `total <= 0`.  Generic over the row type and the
column selectors because the source reuses the same static method for
`success rate (%)` (model rows) and `bin propensity` (predictor bin
rows). -/
def calculate_success_rate (pos total : α → Int) (set : α → Rat → α)
    (df : List α) : List α :=
  ((df.map (fun r => set r 0)).map
      (fun r =>
        if 0 < total r then set r ((pos r : Rat) * 100 / (total r : Rat))
        else r)).map
    (fun r => if total r ≤ 0 then set r 0 else r)

/-- `calculate_success_rate` instantiated at model rows, filling the
`success rate (%)` column. -/
def calcSuccessRateModels (df : List ModelRow) : List ModelRow :=
  calculate_success_rate (fun r => r.positives) (fun r => r.responses)
    (fun r v => { r with successRate := v }) df

/-- Positional zip of the six constructor arrays into `dfModel` rows:
the model of `pd.DataFrame.from_dict(dict(zip(self.cols, [...])))`.
`_set_proper_type` (string/timestamp coercions) is the identity in
this typed embedding. -/
def zipModelRows : List String → List String → List Int → List Int →
    List Rat → List Int → List ModelRow
  | i :: is, n :: ns, p :: ps, r :: rs, a :: as, s :: ss =>
    ⟨i, n, p, r, a, s, 0⟩ :: zipModelRows is ns ps rs as ss
  | _, _, _, _, _, _ => []

/-- Line 117 of the source: `df_all.sort_values('model snapshot')
.groupby(['model name']).tail(1)` — the latest (last on ties) snapshot
row per model name. -/
def latestModelsOf (df_all : List ModelRow) : List ModelRow :=
  dedupLastBy (fun r => r.modelName) (sortByKey (fun r => r.snapshot) df_all)

/-- `ModelReport._create_model_df`: all-snapshots dataframe with the
success-rate column, paired with the latest-per-model dataframe. -/
def create_model_df (modelID modelName : List String)
    (positives responses : List Int) (performance : List Rat)
    (snapshot : List Int) : List ModelRow × List ModelRow :=
  let df_all := calcSuccessRateModels
    (zipModelRows modelID modelName positives responses performance snapshot)
  (df_all, latestModelsOf df_all)

/-- `ModelReport._check_data_shape`: the chained equality on the six
input array lengths. -/
def check_data_shape (modelID modelName : List String)
    (positives responses : List Int) (performance : List Rat)
    (snapshot : List Int) : Bool :=
  modelID.length == modelName.length &&
  modelName.length == positives.length &&
  positives.length == responses.length &&
  responses.length == performance.length &&
  performance.length == snapshot.length

/-- Message of the `TypeError` raised by both shape checks. -/
def shapeErrMsg : String := "All input data must have the same number of rows"

/-- The state a successfully constructed `ModelReport` holds. -/
structure ModelReportS where
  dfModel : List ModelRow
  latestModels : List ModelRow
deriving DecidableEq

/-- `ModelReport.__init__`: checks the six array shapes (raising
`TypeError` before any dataframe is built) and then builds `dfModel`
and `latestModels`. -/
def mkModelReport (modelID modelName : List String)
    (positives responses : List Int) (performance : List Rat)
    (snapshot : List Int) : Except String ModelReportS :=
  if check_data_shape modelID modelName positives responses performance snapshot then
    let dfs := create_model_df modelID modelName positives responses performance snapshot
    Except.ok ⟨dfs.1, dfs.2⟩
  else Except.error shapeErrMsg

/-- A query value: the dynamic values a `_apply_query` filter list may
hold for the typed columns of a model dataframe. -/
inductive QVal where
  | s (v : String)
  | i (v : Int)
  | q (v : Rat)
deriving DecidableEq

/-- The columns of a model dataframe that survive the `model ID` drop
in `_apply_query`. -/
inductive QCol where
  | modelName
  | positives
  | responses
  | performance
  | snapshot
  | successRate
deriving DecidableEq

/-- Column access on a queried row. -/
def getCol (r : QRow) : QCol → QVal
  | QCol.modelName => QVal.s r.modelName
  | QCol.positives => QVal.i r.positives
  | QCol.responses => QVal.i r.responses
  | QCol.performance => QVal.q r.performance
  | QCol.snapshot => QVal.i r.snapshot
  | QCol.successRate => QVal.q r.successRate

/-- The `_df = df.drop('model ID', axis=1)` step of `_apply_query`. -/
def dropModelID (r : ModelRow) : QRow :=
  ⟨r.modelName, r.positives, r.responses, r.performance, r.snapshot, r.successRate⟩

/-- A `_apply_query` predicate map: column to list of permitted
values.  The source's dynamic type checks (`query` must be a dict of
lists, raising `TypeError`/`ValueError` otherwise) are made
unrepresentable by this typing. -/
abbrev Query := List (QCol × List QVal)

/-- `ModelReport._apply_query`: drop the `model ID` column, then keep
the rows lying in every listed value set (`df[col].isin(val)`),
one filter per query entry. -/
def apply_query (query : Query) (df : List ModelRow) : List QRow :=
  query.foldl
    (fun acc cv => acc.filter (fun r => cv.2.contains (getCol r cv.1)))
    (df.map dropModelID)

/-- Cell subtraction in `vals[i,2:]-vals[i,1:-1]`: NaN propagates. -/
def osub : Option Rat → Option Rat → Option Rat
  | some x, some y => some (x - y)
  | _, _ => none

/-- `.mask(_df > 0, 1)`: positive cells become 1, others (including
NaN, for which the comparison is false) are untouched. -/
def maskPos : Option Rat → Option Rat
  | some x => if 0 < x then some 1 else some x
  | none => none

/-- `.mask(df_sign < 0, -1)`: negative cells become -1. -/
def maskNeg : Option Rat → Option Rat
  | some x => if x < 0 then some (-1) else some x
  | none => none

/-- `.fillna(1)`: remaining NaN cells become 1. -/
def fill1 (o : Option Rat) : Option Rat := some (o.getD 1)

/-- One row of `_create_sign_df`: day-over-day differences of the
pivoted responses, masked to signs, first date column set to 1
(`df_sign[cols[0]] = 1` then reordered to `df_sign[cols]`), NaN
filled with 1. -/
def signRow (vs : List (Option Rat)) : List (Option Rat) :=
  (some 1 :: ((List.zipWith osub (vs.drop 1) vs.dropLast).map
      (fun o => maskNeg (maskPos o)))).map fill1

/-- A pivoted table (`df.pivot(columns='Date', values='responses',
index='model name')`): date column labels plus one value list per
model-name row. -/
structure Pivot where
  dates : List Int
  rows : List (String × List (Option Rat))
deriving DecidableEq

/-- `ModelReport._create_sign_df` applied to a pivoted annotation
table: same date columns and model rows, each row replaced by its
sign row. -/
def create_sign_df (df : Pivot) : Pivot :=
  ⟨df.dates, df.rows.map (fun r => (r.1, signRow r.2))⟩

/-- Row of the heatmap working dataframe after the `Date` column is
derived. -/
structure HRow where
  modelName : String
  snapshot : Int
  responses : Int
  date : Int
deriving DecidableEq

/-- Row of the heatmap dataframe once only (name, date, responses)
matter for the pivot; responses may be missing after the
`fill_null_days` reindex. -/
structure FRow where
  modelName : String
  date : Int
  responses : Option Rat
deriving DecidableEq

/-- Result of `generate_heatmap_df`: either the bare empty dataframe
returned on an empty lookback window (after printing an informational
message), or the `(annotate, sign)` dataframe pair. -/
inductive HeatmapResult where
  | noData
  | tables (annot : Pivot) (sign : Pivot)
deriving DecidableEq

/-- Minimum of a list of integers (0 on the empty list). -/
def minIntList : List Int → Int
  | [] => 0
  | [x] => x
  | x :: y :: xs => min x (minIntList (y :: xs))

/-- Sorted insertion without duplicates, for pivot axis labels. -/
def insertUniqueInt (x : Int) : List Int → List Int
  | [] => [x]
  | y :: ys =>
    if x < y then x :: y :: ys
    else if x = y then y :: ys
    else y :: insertUniqueInt x ys

/-- Ascending duplicate-free list of the values, as pandas `pivot`
orders its column labels. -/
def dedupSortInt : List Int → List Int
  | [] => []
  | x :: xs => insertUniqueInt x (dedupSortInt xs)

/-- Sorted insertion without duplicates for strings. -/
def insertUniqueStr (x : String) : List String → List String
  | [] => [x]
  | y :: ys =>
    if x < y then x :: y :: ys
    else if x = y then y :: ys
    else y :: insertUniqueStr x ys

/-- Ascending duplicate-free list of the names, as pandas `pivot` and
`groupby` order their index labels. -/
def dedupSortStr : List String → List String
  | [] => []
  | x :: xs => insertUniqueStr x (dedupSortStr xs)

/-- The inclusive integer range, as `pd.date_range(min, max)`. -/
def rangeInt (lo hi : Int) : List Int :=
  (List.range (hi - lo + 1).toNat).map (fun k => lo + (k : Int))

/-- The `fill_null_days` branch: reindex each model's day series onto
the full `date_range(min, max)`, leaving missing responses for absent
days.  (pandas `reindex` raises on a duplicate day index; the model
keeps the first row of a day, so the heatmap theorems carry a
duplicate-free hypothesis keeping them to inputs where the source
does not raise.) -/
def fillNullDays (kept : List HRow) : List FRow :=
  let lo := minIntList (kept.map (fun r => r.date))
  let hi := maxIntList (kept.map (fun r => r.date))
  (dedupSortStr (kept.map (fun r => r.modelName))).foldr
    (fun n acc =>
      ((rangeInt lo hi).map (fun d =>
        match kept.find? (fun r => r.modelName == n && r.date == d) with
        | some r => FRow.mk n d (some (r.responses : Rat))
        | none => FRow.mk n d none)) ++ acc)
    []

/-- `df.pivot(columns='Date', values='responses', index='model name')`:
sorted unique dates as columns, sorted unique names as rows, the
response of the (name, date) row as cell, NaN when absent.  (pandas
raises on duplicate (name, date) pairs; the model reads the first
such row, so the heatmap theorems carry a duplicate-free hypothesis
keeping them to inputs where the source does not raise.) -/
def pivotHM (rows : List FRow) : Pivot :=
  let ds := dedupSortInt (rows.map (fun r => r.date))
  ⟨ds,
    (dedupSortStr (rows.map (fun r => r.modelName))).map
      (fun n => (n, ds.map (fun d =>
        ((rows.find? (fun r => r.modelName == n && r.date == d)).bind
          (fun r => r.responses)))))⟩

/-- The selected working dataframe of `generate_heatmap_df` before
the lookback filter: query, select (name, snapshot, responses), sort
by snapshot, derive the `Date` column. -/
def heatmapRows (m : ModelReportS) (query : Query) : List HRow :=
  (sortByKey (fun r => r.snapshot) (apply_query query m.dfModel)).map
    (fun r => HRow.mk r.modelName r.snapshot r.responses (dateOf r.snapshot))

/-- The lookback filter
`df[df['Date'] > df['Date'].max() - datetime.timedelta(lookback)]`. -/
def heatmapWindow (m : ModelReportS) (lookback : Int) (query : Query) :
    List HRow :=
  (heatmapRows m query).filter (fun r =>
    maxIntList ((heatmapRows m query).map (fun x => x.date)) - lookback < r.date)

/-- Message of the `TypeError` the source raises while building the
window of an empty selected frame: `df['Date'].max()` is NaN there,
and NaN minus a timedelta is an unsupported operand. -/
def nanTimedeltaMsg : String :=
  "unsupported operand type for -: float and timedelta"

/-- The window computation including the source's error behaviour: on
an empty selected frame the subtraction
`df['Date'].max() - datetime.timedelta(lookback)` raises before the
row-count check is ever reached. -/
def heatmapWindowE (m : ModelReportS) (lookback : Int) (query : Query) :
    Except String (List HRow) :=
  if heatmapRows m query = [] then Except.error nanTimedeltaMsg
  else Except.ok (heatmapWindow m lookback query)

/-- `transform(max)` over the (model name, Date) groups of the window. -/
def groupMaxHR (df : List HRow) (n : String) (d : Int) : Int :=
  maxIntList ((df.filter (fun r => r.modelName == n && r.date == d)).map
    (fun r => r.snapshot))

/-- The `df = df[idx]` step of `generate_heatmap_df`: keep the rows
whose snapshot equals the `transform(max)` of their
(model name, Date) group. -/
def heatmapKept (df : List HRow) : List HRow :=
  df.filter (fun r => r.snapshot == groupMaxHR df r.modelName r.date)

/-- The `fill_null_days` branch of `generate_heatmap_df`. -/
def heatmapFilled (fill_null_days : Bool) (kept : List HRow) : List FRow :=
  if fill_null_days then fillNullDays kept
  else kept.map (fun r => FRow.mk r.modelName r.date (some (r.responses : Rat)))

/-- `ModelReport.generate_heatmap_df`: propagates the `TypeError` of
an empty selected frame; otherwise returns the bare empty dataframe
when the lookback window holds no row (the source prints an
informational message first), and else keeps the latest snapshot per
(model name, Date), optionally fills missing days, pivots, and pairs
the annotation table with its sign table. -/
def generate_heatmap_df (m : ModelReportS) (lookback : Int) (query : Query)
    (fill_null_days : Bool) : Except String HeatmapResult :=
  (heatmapWindowE m lookback query).map (fun df =>
    if df.length < 1 then HeatmapResult.noData
    else
      HeatmapResult.tables
        (pivotHM (heatmapFilled fill_null_days (heatmapKept df)))
        (create_sign_df (pivotHM (heatmapFilled fill_null_days
          (heatmapKept df)))))

/-- Row of the ADM predictor-bin dataframe (`predCols` order):
`model ID`, `predictor name`, `predictor performance`, `bin symbol`,
`bin index`, `entry type`, `predictor type`, `bin positives`,
`bin responses`, `predictor snapshot`, plus the derived
`bin propensity` column (0 until `calculate_success_rate` fills it). -/
structure PredRow where
  modelID : String
  predName : String
  predPerformance : Rat
  binSymbol : String
  binIndex : Int
  entryType : String
  predictorType : String
  binPositives : Int
  binResponses : Int
  predSnapshot : Int
  binPropensity : Rat
deriving DecidableEq

/-- The predictor-side columns a merged `latestPredModel` row carries
(`model ID` and `predictor snapshot` are dropped by the source). -/
structure PredFields where
  predName : String
  predPerformance : Rat
  binSymbol : String
  binIndex : Int
  entryType : String
  predictorType : String
  binPositives : Int
  binResponses : Int
  binPropensity : Rat
deriving DecidableEq

/-- The predictor-side columns of a kept predictor row. -/
def predFieldsOf (p : PredRow) : PredFields :=
  ⟨p.predName, p.predPerformance, p.binSymbol, p.binIndex, p.entryType,
   p.predictorType, p.binPositives, p.binResponses, p.binPropensity⟩

/-- Row of `latestPredModel`: the model-side columns of a `dfModel`
row joined with the predictor-side columns, `none` when the left join
found no predictor row for the model ID (pandas NaN row). -/
structure MergedRow where
  modelName : String
  positives : Int
  responses : Int
  performance : Rat
  snapshot : Int
  successRate : Rat
  pred : Option PredFields
deriving DecidableEq

/-- Positional zip of the ten predictor constructor arrays into
predictor-bin rows. -/
def zipPredRows : List String → List String → List Rat → List String →
    List Int → List String → List String → List Int → List Int →
    List Int → List PredRow
  | a :: as, b :: bs, c :: cs, d :: ds, e :: es, f :: fs, g :: gs,
      h :: hs, i :: is, j :: js =>
    ⟨a, b, c, d, e, f, g, h, i, j, 0⟩ ::
      zipPredRows as bs cs ds es fs gs hs is js
  | _, _, _, _, _, _, _, _, _, _ => []

/-- `ADMReport._check_pred_data_shape`: the chained equality on the
ten predictor array lengths, independent of the model-array check. -/
def check_pred_data_shape (predModelID predName : List String)
    (predPerformance : List Rat) (binSymbol : List String)
    (binIndex : List Int) (entryType predictorType : List String)
    (binPositives binResponses : List Int) (predSnapshot : List Int) : Bool :=
  predModelID.length == predName.length &&
  predName.length == predPerformance.length &&
  predPerformance.length == binSymbol.length &&
  binSymbol.length == binIndex.length &&
  binIndex.length == entryType.length &&
  entryType.length == predictorType.length &&
  predictorType.length == predSnapshot.length &&
  predSnapshot.length == binPositives.length &&
  binPositives.length == binResponses.length

/-- `transform(max)` of `predictor snapshot` over the
(`model ID`, `predictor name`) groups. -/
def groupMaxSnap (preds : List PredRow) (mid pn : String) : Int :=
  maxIntList ((preds.filter
    (fun p => p.modelID == mid && p.predName == pn)).map
      (fun p => p.predSnapshot))

/-- Lines 442-443 of the source: keep every predictor-bin row whose
snapshot equals its group's maximum snapshot. -/
def keptPredsOf (preds : List PredRow) : List PredRow :=
  preds.filter
    (fun p => p.predSnapshot == groupMaxSnap preds p.modelID p.predName)

/-- The kept predictor rows with the `bin propensity` column filled. -/
def keptPredsWithProp (preds : List PredRow) : List PredRow :=
  calculate_success_rate (fun p => p.binPositives) (fun p => p.binResponses)
    (fun p v => { p with binPropensity := v }) (keptPredsOf preds)

/-- `self.dfModel.merge(_df, on='model ID', how='left')` followed by
dropping `model ID` and `predictor snapshot`: every `dfModel` row is
kept; it is repeated once per predictor row sharing its model ID, or
kept once with NaN predictor columns when no predictor row matches. -/
def mergePredOntoModels (models : List ModelRow) (ps : List PredRow) :
    List MergedRow :=
  match models with
  | [] => []
  | m :: ms =>
    (let hits := ps.filter (fun p => p.modelID == m.modelID)
     if hits.isEmpty then
       [⟨m.modelName, m.positives, m.responses, m.performance, m.snapshot,
         m.successRate, none⟩]
     else
       hits.map (fun p =>
         ⟨m.modelName, m.positives, m.responses, m.performance, m.snapshot,
          m.successRate, some (predFieldsOf p)⟩))
    ++ mergePredOntoModels ms ps

/-- `ADMReport._create_pred_model_df`: group-maximum filter on the
predictor snapshots, `bin propensity` computation, then the left
merge of `dfModel` with the kept predictor rows. -/
def latestPredModelOf (models : List ModelRow) (preds : List PredRow) :
    List MergedRow :=
  mergePredOntoModels models (keptPredsWithProp preds)

/-- The state a successfully constructed `ADMReport` holds (the
constructor also stores the raw predictor arrays as attributes,
kept here as `predRows`). -/
structure ADMReportS where
  dfModel : List ModelRow
  latestModels : List ModelRow
  predRows : List PredRow
  latestPredModel : List MergedRow
deriving DecidableEq

/-- `ADMReport.__init__`: run the `ModelReport` constructor (which
checks the six model arrays), then check the ten predictor arrays,
then build `latestPredModel`. -/
def mkADMReport (modelID modelName : List String)
    (positives responses : List Int) (performance : List Rat)
    (snapshot : List Int)
    (predModelID predName : List String) (predPerformance : List Rat)
    (binSymbol : List String) (binIndex : List Int)
    (entryType predictorType : List String)
    (predSnapshot : List Int) (binPositives binResponses : List Int) :
    Except String ADMReportS :=
  match mkModelReport modelID modelName positives responses performance snapshot with
  | Except.error e => Except.error e
  | Except.ok base =>
    if check_pred_data_shape predModelID predName predPerformance binSymbol
        binIndex entryType predictorType binPositives binResponses predSnapshot then
      let preds := zipPredRows predModelID predName predPerformance binSymbol
        binIndex entryType predictorType binPositives binResponses predSnapshot
      Except.ok ⟨base.dfModel, base.latestModels, preds,
        latestPredModelOf base.dfModel preds⟩
    else Except.error shapeErrMsg

/-- The special predictor name of the overall score distribution. -/
def classifierName : String := "Classifier"

/-- `latestPredModel['predictor name'] == 'Classifier'` on a merged
row: false on a NaN predictor side, as in pandas. -/
def predNameIsClassifier (r : MergedRow) : Bool :=
  match r.pred with
  | some f => f.predName == classifierName
  | none => false

/-- The data selection of `ADMReport.show_score_distribution`
(the rows it then renders one model at a time): the
`predictor name == 'Classifier'` rows, optionally restricted to the
listed model names (`if models:` is false for `None` and for the
empty list). -/
def show_score_distribution_data (adm : ADMReportS)
    (models : Option (List String)) : List MergedRow :=
  let df := adm.latestPredModel.filter predNameIsClassifier
  match models with
  | some (m :: ms) => df.filter (fun r => (m :: ms).contains r.modelName)
  | _ => df

/-- The data selection of `ADMReport.show_predictor_report`: the rows
of the given model whose predictor name is not `'Classifier'`
(a NaN predictor name passes the `!=` test, as in pandas), optionally
restricted to the listed predictor names. -/
def show_predictor_report_data (adm : ADMReportS) (model_name : String)
    (predictors : Option (List String)) : List MergedRow :=
  let df := adm.latestPredModel.filter
    (fun r => r.modelName == model_name && !(predNameIsClassifier r))
  match predictors with
  | some (p :: ps) =>
    df.filter (fun r =>
      match r.pred with
      | some f => (p :: ps).contains f.predName
      | none => false)
  | _ => df

/-- Whether `generate_heatmap_df` produced the dataframe pair. -/
def isTables : HeatmapResult → Bool
  | HeatmapResult.noData => false
  | HeatmapResult.tables _ _ => true

/-- Whether a heatmap result is a pair with exactly one date column
whose sign table is identically 1 and shares the annotation table's
model rows. -/
def isOneColAllOnes : HeatmapResult → Bool
  | HeatmapResult.noData => false
  | HeatmapResult.tables a s =>
    decide (a.dates.length = 1) && decide (s.dates = a.dates) &&
    decide (s.rows.map Prod.fst = a.rows.map Prod.fst) &&
    s.rows.all (fun r => decide (r.2 = [some 1]))

/-- Spec-side sign function (the claim's words):
`sign(responses[d] - responses[d-1])` in {-1, 0, 1}, any comparison
involving a missing value resolving to 1. -/
def signSpecVal : Option Rat → Option Rat → Rat
  | some c, some p => if p < c then 1 else if c < p then -1 else 0
  | _, _ => 1

/-- Spec-side sign row (the claim's words): 1 in the first date
column, then `signSpecVal` of each adjacent pair of annotation
cells. -/
def signRowSpec (vs : List (Option Rat)) : List (Option Rat) :=
  some 1 :: (List.range (vs.length - 1)).map
    (fun k => some (signSpecVal (vs.getD (k + 1) none) (vs.getD k none)))

/-- Spec-side count (the claim's words): the number of distinct
(model ID, predictor name) pairs in the predictor input. -/
def numDistinctPredPairs (preds : List PredRow) : Nat :=
  ((preds.map (fun p => (p.modelID, p.predName))).dedup).length

/-- Success test on the embedded constructors. -/
def isOkE : Except String α → Bool
  | Except.ok _ => true
  | Except.error _ => false

/-- The model-name allow-list test of `show_score_distribution`. -/
def allowModelB (models : Option (List String)) (r : MergedRow) : Bool :=
  match models with
  | some (m :: ms) => (m :: ms).contains r.modelName
  | _ => true

/-- The predictor-name allow-list test of `show_predictor_report`. -/
def allowPredB (predictors : Option (List String)) (r : MergedRow) : Bool :=
  match predictors with
  | some (p :: ps) =>
    match r.pred with
    | some f => (p :: ps).contains f.predName
    | none => false
  | _ => true

/-- `entry type == 'Classifier'` on a merged row (the selection the
spec describes for `selectDistribution`). -/
def entryTypeIsClassifier (r : MergedRow) : Bool :=
  match r.pred with
  | some f => f.entryType == classifierName
  | none => false

/-- Provenance of a `latestPredModel` row: its model columns come
from some model row, and its predictor columns either are NaN or come
from a kept predictor row carrying that model's ID. -/
def mergedRowProvenance (models : List ModelRow) (ps : List PredRow)
    (r : MergedRow) : Bool :=
  models.any (fun m =>
    decide (r.modelName = m.modelName) && decide (r.positives = m.positives) &&
    decide (r.responses = m.responses) && decide (r.performance = m.performance) &&
    decide (r.snapshot = m.snapshot) && decide (r.successRate = m.successRate) &&
    (match r.pred with
     | none => true
     | some f =>
       ps.any (fun p => p.modelID == m.modelID && decide (f = predFieldsOf p))))

/-- Concrete ADM construction for checking the `latestPredModel` row
count: one model with two snapshots (same model ID) and a single
predictor-bin row for that model ID. -/
def exADM1 : Except String ADMReportS :=
  mkADMReport ["i1", "i1"] ["m1", "m1"] [1, 2] [100, 110] [0, 0] [0, 86400]
    ["i1"] ["AGE"] [0] ["b1"] [1] ["Active"] ["numeric"] [0] [1] [10]

/-- Three snapshots of one model name, the last two tied on the
maximum snapshot time. -/
def w2rows : List ModelRow :=
  [⟨"i1", "m", 1, 0, 0, 5, 0⟩, ⟨"i2", "m", 2, 0, 0, 9, 0⟩,
   ⟨"i3", "m", 3, 0, 0, 9, 0⟩]

/-- The row `latestModelsOf w2rows` is expected to keep: the last
input row among the snapshot-9 ties. -/
def w2kept : ModelRow := ⟨"i3", "m", 3, 0, 0, 9, 0⟩

/-- A concrete annotation table: two models over three dates with
missing cells. -/
def exP3 : Pivot :=
  ⟨[10, 11, 12],
   [("m1", [some 3, some 5, none]), ("m2", [none, some 2, some 2])]⟩

/-- Two snapshots of one model, both on calendar day 0. -/
def exM4 : ModelReportS :=
  ⟨[⟨"i1", "m1", 0, 3, 0, 100, 0⟩, ⟨"i1", "m1", 0, 4, 0, 200, 0⟩], []⟩

/-- A report with an empty `dfModel`, for which any lookback window
is empty. -/
def exM5 : ModelReportS := ⟨[], []⟩

/-- Concrete ADM construction whose predictor rows cross the
`predictor name` and `entry type` columns: the name `Classifier`
carries entry type `Active`, while the name `AGE` carries entry type
`Classifier`. -/
def exADM8 : Except String ADMReportS :=
  mkADMReport ["i1"] ["m1"] [1] [10] [0] [0]
    ["i1", "i1"] ["Classifier", "AGE"] [0, 0] ["b", "b"] [1, 1]
    ["Active", "Classifier"] ["numeric", "numeric"] [0, 0] [0, 0] [0, 0]

/-- Three predictor-bin rows of one (model ID, predictor name) group,
the first two tied on the maximum snapshot time. -/
def wPs10 : List PredRow :=
  [⟨"i", "A", 0, "b", 1, "e", "numeric", 0, 0, 9, 0⟩,
   ⟨"i", "A", 0, "c", 2, "e", "numeric", 0, 0, 9, 0⟩,
   ⟨"i", "A", 0, "d", 3, "e", "numeric", 0, 0, 5, 0⟩]

/-- The first of the two tied predictor-bin rows. -/
def wP10a : PredRow := ⟨"i", "A", 0, "b", 1, "e", "numeric", 0, 0, 9, 0⟩

/-- Two model rows of one name tied on the maximum snapshot time. -/
def wRows10 : List ModelRow :=
  [⟨"a", "x", 1, 0, 0, 7, 0⟩, ⟨"b", "x", 2, 0, 0, 7, 0⟩]

theorem isOkE_mkModelReport (mi mn : List String) (po re : List Int)
    (pf : List Rat) (sn : List Int) :
    isOkE (mkModelReport mi mn po re pf sn)
      = check_data_shape mi mn po re pf sn := by
  unfold mkModelReport
  split <;> simp_all [isOkE]

theorem isOkE_mkADMReport (mi mn : List String) (po re : List Int)
    (pf : List Rat) (sn : List Int) (pi2 pn : List String) (pp : List Rat)
    (bs : List String) (bi : List Int) (et pt : List String)
    (ps : List Int) (bp br : List Int) :
    isOkE (mkADMReport mi mn po re pf sn pi2 pn pp bs bi et pt ps bp br)
      = (check_data_shape mi mn po re pf sn
          && check_pred_data_shape pi2 pn pp bs bi et pt bp br ps) := by
  unfold mkADMReport
  cases h : mkModelReport mi mn po re pf sn with
  | error e =>
    have hm := isOkE_mkModelReport mi mn po re pf sn
    rw [h] at hm
    simp [isOkE] at hm
    simp [isOkE, ← hm]
  | ok base =>
    have hm := isOkE_mkModelReport mi mn po re pf sn
    rw [h] at hm
    simp [isOkE] at hm
    by_cases hp : check_pred_data_shape pi2 pn pp bs bi et pt bp br ps = true <;>
      simp_all [isOkE]

/-- Claim C6: the derived success rate (and analogously the bin
propensity) of every record equals `positives * 100 / responses`
exactly when `responses > 0` and is 0 when `responses <= 0`; in
particular both are 0 on a 0/0 record, with no division error (the
guarded branch never divides). -/
theorem c6_success_rate_formula :
    ∀ (mrows : List ModelRow) (prows : List PredRow),
      calcSuccessRateModels mrows
        = mrows.map (fun r =>
            { r with successRate :=
                if 0 < r.responses then (r.positives : Rat) * 100 / (r.responses : Rat)
                else 0 })
      ∧ calculate_success_rate (fun p => p.binPositives)
            (fun p => p.binResponses)
            (fun p v => { p with binPropensity := v }) prows
        = prows.map (fun p =>
            { p with binPropensity :=
                if 0 < p.binResponses then
                  (p.binPositives : Rat) * 100 / (p.binResponses : Rat)
                else 0 }) := by
  intro mrows prows
  constructor
  · simp only [calcSuccessRateModels, calculate_success_rate, List.map_map]
    apply List.map_congr_left
    intro r _
    by_cases h : 0 < r.responses
    · simp [Function.comp, h, not_le.mpr h]
    · simp [Function.comp, h, le_of_not_lt h]
  · simp only [calculate_success_rate, List.map_map]
    apply List.map_congr_left
    intro p _
    by_cases h : 0 < p.binResponses
    · simp [Function.comp, h, not_le.mpr h]
    · simp [Function.comp, h, le_of_not_lt h]

/-- Claim C7: `ModelReport` construction succeeds exactly when the
six input arrays share one length (failing with the shape-mismatch
`TypeError` before any dataframe is built otherwise), and `ADMReport`
construction succeeds exactly when additionally the ten predictor
arrays share one length among themselves, checked independently of
the model arrays. -/
theorem c7_shape_checks :
    ∀ (mi mn : List String) (po re : List Int) (pf : List Rat) (sn : List Int)
      (pi2 pn : List String) (pp : List Rat) (bs : List String) (bi : List Int)
      (et pt : List String) (ps : List Int) (bp br : List Int),
      (isOkE (mkModelReport mi mn po re pf sn) = true
        ↔ (mi.length = mn.length ∧ mn.length = po.length
            ∧ po.length = re.length ∧ re.length = pf.length
            ∧ pf.length = sn.length))
      ∧ (isOkE (mkADMReport mi mn po re pf sn pi2 pn pp bs bi et pt ps bp br) = true
        ↔ ((mi.length = mn.length ∧ mn.length = po.length
            ∧ po.length = re.length ∧ re.length = pf.length
            ∧ pf.length = sn.length)
          ∧ (pi2.length = pn.length ∧ pn.length = pp.length
            ∧ pp.length = bs.length ∧ bs.length = bi.length
            ∧ bi.length = et.length ∧ et.length = pt.length
            ∧ pt.length = ps.length ∧ ps.length = bp.length
            ∧ bp.length = br.length))) := by
  intro mi mn po re pf sn pi2 pn pp bs bi et pt ps bp br
  constructor
  · rw [isOkE_mkModelReport]
    simp [check_data_shape, Bool.and_eq_true, and_assoc]
  · rw [isOkE_mkADMReport]
    simp [check_data_shape, check_pred_data_shape, Bool.and_eq_true, and_assoc]

/-- Claim C9: `_apply_query` with the empty predicate map returns the
collection with only the `model ID` column removed: same row count,
rows in the same positions, every other column's value unchanged. -/
theorem c9_empty_query_frame :
    ∀ (df : List ModelRow),
      (apply_query [] df).length = df.length
      ∧ (∀ i : Nat, (apply_query [] df)[i]? = (df[i]?).map dropModelID)
      ∧ (∀ r : ModelRow,
          (dropModelID r).modelName = r.modelName
          ∧ (dropModelID r).positives = r.positives
          ∧ (dropModelID r).responses = r.responses
          ∧ (dropModelID r).performance = r.performance
          ∧ (dropModelID r).snapshot = r.snapshot
          ∧ (dropModelID r).successRate = r.successRate) := by
  intro df
  refine ⟨?_, ?_, ?_⟩
  · simp [apply_query]
  · intro i
    simp [apply_query, List.getElem?_map]
  · intro r
    exact ⟨rfl, rfl, rfl, rfl, rfl, rfl⟩

theorem filter_and (p q : α → Bool) (l : List α) :
    (l.filter p).filter q = l.filter (fun a => p a && q a) := by
  induction l with
  | nil => simp
  | cons a as ih =>
    by_cases hp : p a = true
    · by_cases hq : q a = true <;> simp [List.filter_cons, hp, hq, ih]
    · simp [List.filter_cons, hp, ih]

theorem filter_and_comm (p q : α → Bool) (l : List α) :
    l.filter (fun a => p a && q a) = l.filter (fun a => q a && p a) := by
  have h : (fun a => p a && q a) = (fun a => q a && p a) := by
    funext a
    exact Bool.and_comm (p a) (q a)
  rw [h]

/-- Claim C2 (amended): pandas `sort_values('model snapshot')` with
its default `kind='quicksort'` guarantees only a snapshot-sorted
permutation of the rows — the sort is documented unstable — so the
theorem quantifies over every admissible sort result: on each one,
`groupby('model name').tail(1)` keeps exactly one record per distinct
model name, that record is an input record, and its snapshot time
bounds every same-named input record's snapshot time from above.
Which record is kept among maximum-snapshot ties depends on the
unspecified order of equal keys, not on input order (see the
counterexample). -/
theorem c2_latest_per_model_amended :
    ∀ (rows sorted_df : List ModelRow),
      List.Perm sorted_df rows →
      sorted_df.Pairwise (fun x y => x.snapshot ≤ y.snapshot) →
      (∀ n : String, (∃ r ∈ rows, r.modelName = n) →
        (dedupLastBy (fun r => r.modelName) sorted_df).countP
          (fun r => r.modelName == n) = 1)
      ∧ (∀ r ∈ dedupLastBy (fun r => r.modelName) sorted_df, ∀ s ∈ rows,
          s.modelName = r.modelName → s.snapshot ≤ r.snapshot)
      ∧ (∀ r ∈ dedupLastBy (fun r => r.modelName) sorted_df, r ∈ rows) := by
  intro rows sorted_df hperm hsort
  refine ⟨?_, ?_, ?_⟩
  · intro n hn
    apply countP_dedupLastBy
    rcases hn with ⟨r, hr, hrn⟩
    exact ⟨r, hperm.mem_iff.mpr hr, hrn⟩
  · intro r hr s hs hname
    have hlast : (sorted_df.filter
        (fun b : ModelRow => b.modelName == r.modelName)).getLast? = some r :=
      getLastQ_of_mem_dedupLastBy (fun x => x.modelName) sorted_df r hr
    have hpair : (sorted_df.filter
        (fun b : ModelRow => b.modelName == r.modelName)).Pairwise
        (fun x y => x.snapshot ≤ y.snapshot) :=
      hsort.filter _
    have hmem : s ∈ sorted_df.filter
        (fun b : ModelRow => b.modelName == r.modelName) :=
      List.mem_filter.mpr ⟨hperm.mem_iff.mpr hs, by simp [hname]⟩
    exact key_le_getLast_of_pairwise (fun x => x.snapshot) _ r hpair hlast s hmem
  · intro r hr
    exact hperm.mem_iff.mp (mem_of_mem_dedupLastBy _ sorted_df r hr)

/-- The model name used by the C2 witness rows. -/
def w2name : String := "m"

/-- The first (oldest) of the C2 witness rows. -/
def w2r1 : ModelRow := ⟨"i1", "m", 1, 0, 0, 5, 0⟩

/-- The middle C2 witness row, one of the two snapshot-9 ties. -/
def w2r2 : ModelRow := ⟨"i2", "m", 2, 0, 0, 9, 0⟩

/-- An admissible `sort_values` result for `w2rows`: a snapshot-sorted
permutation in which the two tied rows appear in the reverse of their
input order, as an unstable quicksort may produce. -/
def w2alt : List ModelRow :=
  [⟨"i1", "m", 1, 0, 0, 5, 0⟩, ⟨"i3", "m", 3, 0, 0, 9, 0⟩,
   ⟨"i2", "m", 2, 0, 0, 9, 0⟩]

/-- Witness for the amended claim C2 at the admissible sort result
`w2alt` of `w2rows`: one kept row for the name, the oldest row's
snapshot bounded by the kept row's, and the kept row an input row. -/
theorem c2_latest_per_model_amended_witness :
    (dedupLastBy (fun r => r.modelName) w2alt).countP
        (fun r => r.modelName == w2name) = 1
    ∧ w2r1.snapshot ≤ w2r2.snapshot
    ∧ w2r2 ∈ w2rows :=
  ⟨(c2_latest_per_model_amended w2rows w2alt (by decide) (by decide)).1 w2name
      ⟨w2r1, by decide, rfl⟩,
   (c2_latest_per_model_amended w2rows w2alt (by decide) (by decide)).2.1 w2r2
      (by decide) w2r1 (by decide) rfl,
   (c2_latest_per_model_amended w2rows w2alt (by decide) (by decide)).2.2 w2r2
      (by decide)⟩

/-- Counterexample to claim C2 as stated: `sort_values` with the
default `kind='quicksort'` promises only a snapshot-sorted permutation
of the input — numpy's introsort reorders tied keys once an array
exceeds its 16-element insertion-sort cutoff — and `w2alt` is such an
admissible sort result of `w2rows`.  On it `groupby.tail(1)` keeps
`w2r2`, which is not the record occurring last in input order among
the maximum-snapshot ties (that record is `w2kept`): the claimed
last-in-input-order tie-break is not a property of the program. -/
theorem c2_counterexample :
    List.Perm w2alt w2rows
    ∧ w2alt.Pairwise (fun x y => x.snapshot ≤ y.snapshot)
    ∧ dedupLastBy (fun r => r.modelName) w2alt = [w2r2]
    ∧ (w2rows.filter (fun s => s.modelName == w2r2.modelName
        && s.snapshot == w2r2.snapshot)).getLast? = some w2kept
    ∧ w2r2 ≠ w2kept :=
  ⟨by decide, by decide, by decide, by decide, by decide⟩

theorem countP_filter_own (p q : α → Bool) (l : List α) :
    (l.filter q).countP p = l.countP (fun a => p a && q a) := by
  induction l with
  | nil => simp
  | cons a as ih =>
    by_cases hq : q a = true
    · by_cases hp : p a = true <;>
        simp [List.filter_cons, List.countP_cons, hq, hp, ih]
    · simp [List.filter_cons, List.countP_cons, hq, ih]

/-- Claim C10: predictor-bin rows tied on the maximum snapshot time of
their (model ID, predictor name) group are all kept by the
latest-predictor selection — every such row survives, with its
multiplicity — whereas `latestModels` keeps exactly one record per
model name. -/
theorem c10_ties_kept :
    ∀ (preds : List PredRow) (mid pn : String) (rows : List ModelRow)
      (n : String),
      (∀ p ∈ preds, p.modelID = mid → p.predName = pn →
        p.predSnapshot = groupMaxSnap preds mid pn → p ∈ keptPredsOf preds)
      ∧ ((keptPredsOf preds).countP (fun p =>
            p.modelID == mid && p.predName == pn
              && p.predSnapshot == groupMaxSnap preds mid pn)
          = preds.countP (fun p =>
            p.modelID == mid && p.predName == pn
              && p.predSnapshot == groupMaxSnap preds mid pn))
      ∧ ((∃ r ∈ rows, r.modelName = n) →
          (latestModelsOf rows).countP (fun r => r.modelName == n) = 1) := by
  intro preds mid pn rows n
  have hfun : (fun a : PredRow =>
        (a.modelID == mid && a.predName == pn
          && a.predSnapshot == groupMaxSnap preds mid pn)
        && (a.predSnapshot == groupMaxSnap preds a.modelID a.predName))
      = (fun a : PredRow => a.modelID == mid && a.predName == pn
          && a.predSnapshot == groupMaxSnap preds mid pn) := by
    funext a
    by_cases h : (a.modelID == mid && a.predName == pn
        && a.predSnapshot == groupMaxSnap preds mid pn) = true
    · rw [h, Bool.true_and]
      simp only [Bool.and_eq_true, beq_iff_eq] at h
      obtain ⟨⟨h1, h2⟩, h3⟩ := h
      simp [h1, h2, h3]
    · rw [Bool.not_eq_true] at h
      rw [h, Bool.false_and]
  refine ⟨?_, ?_, ?_⟩
  · intro p hp hmid hpn hsnap
    unfold keptPredsOf
    apply List.mem_filter.mpr
    refine ⟨hp, ?_⟩
    simp [hmid, hpn, hsnap]
  · have hcf : (keptPredsOf preds).countP (fun p =>
          p.modelID == mid && p.predName == pn
            && p.predSnapshot == groupMaxSnap preds mid pn)
        = preds.countP (fun a =>
            (a.modelID == mid && a.predName == pn
              && a.predSnapshot == groupMaxSnap preds mid pn)
            && (a.predSnapshot == groupMaxSnap preds a.modelID a.predName)) :=
      countP_filter_own _ _ preds
    rw [hcf, hfun]
  · intro hn
    unfold latestModelsOf
    apply countP_dedupLastBy
    rcases hn with ⟨r, hr, hrn⟩
    exact ⟨r, (mem_sortByKey _ r rows).mpr hr, hrn⟩

/-- The model ID of the C10 witness group. -/
def wP10mid : String := "i"

/-- The predictor name of the C10 witness group. -/
def wP10pn : String := "A"

/-- The model name of the C10 witness model rows. -/
def wname10 : String := "x"

/-- The first of the two tied C10 witness model rows. -/
def wRow10a : ModelRow := ⟨"a", "x", 1, 0, 0, 7, 0⟩

/-- Witness for claim C10 on `wPs10` (two of three bin rows tied on
the maximum snapshot of their group) and `wRows10` (two model rows of
one name tied on the maximum snapshot): the first tied bin row is
kept, the tied-row count is preserved by the selection, and the model
side keeps exactly one row. -/
theorem c10_ties_kept_witness :
    wP10a ∈ keptPredsOf wPs10
    ∧ (keptPredsOf wPs10).countP (fun p =>
        p.modelID == wP10mid && p.predName == wP10pn
          && p.predSnapshot == groupMaxSnap wPs10 wP10mid wP10pn)
      = wPs10.countP (fun p =>
        p.modelID == wP10mid && p.predName == wP10pn
          && p.predSnapshot == groupMaxSnap wPs10 wP10mid wP10pn)
    ∧ (latestModelsOf wRows10).countP (fun r => r.modelName == wname10) = 1 :=
  ⟨(c10_ties_kept wPs10 wP10mid wP10pn wRows10 wname10).1 wP10a (by decide)
      rfl rfl (by decide),
   (c10_ties_kept wPs10 wP10mid wP10pn wRows10 wname10).2.1,
   (c10_ties_kept wPs10 wP10mid wP10pn wRows10 wname10).2.2
      ⟨wRow10a, by decide, rfl⟩⟩

theorem sign_cell (a b : Option Rat) :
    fill1 (maskNeg (maskPos (osub a b))) = some (signSpecVal a b) := by
  cases a with
  | none => cases b <;> simp [osub, maskPos, maskNeg, fill1, signSpecVal]
  | some x =>
    cases b with
    | none => simp [osub, maskPos, maskNeg, fill1, signSpecVal]
    | some y =>
      by_cases h1 : y < x
      · have hpos : 0 < x - y := sub_pos.mpr h1
        have h10 : ¬((1 : Rat) < 0) := by norm_num
        simp [osub, maskPos, maskNeg, fill1, signSpecVal, hpos, h1, h10]
      · by_cases h2 : x < y
        · have hneg : x - y < 0 := sub_neg.mpr h2
          have hnp : ¬(0 < x - y) := by
            rw [sub_pos]
            exact h1
          simp [osub, maskPos, maskNeg, fill1, signSpecVal, hnp, hneg, h1, h2]
        · have hxy : x = y := le_antisymm (not_lt.mp h1) (not_lt.mp h2)
          subst hxy
          simp [osub, maskPos, maskNeg, fill1, signSpecVal, sub_self, h1]

/-- On a non-empty row the source's sign row coincides with the
spec's: 1 in the first date column, the sign of the day-over-day
difference after, with missing comparisons resolving to 1. -/
theorem signRow_eq_spec (vs : List (Option Rat)) (_h : vs ≠ []) :
    signRow vs = signRowSpec vs := by
  have htail : (List.zipWith osub (vs.drop 1) vs.dropLast).map
      (fun o => fill1 (maskNeg (maskPos o)))
    = (List.range (vs.length - 1)).map
        (fun k => some (signSpecVal (vs.getD (k + 1) none) (vs.getD k none))) := by
    apply List.ext_getElem
    · simp only [List.length_map, List.length_zipWith, List.length_drop,
        List.length_dropLast, List.length_range]
      omega
    · intro i h1 h2
      simp only [List.length_map, List.length_zipWith, List.length_drop,
        List.length_dropLast, List.length_range] at h1 h2
      have hi1 : i + 1 < vs.length := by omega
      have hi0 : i < vs.length := by omega
      have hcomm : 1 + i = i + 1 := Nat.add_comm 1 i
      simp only [List.getElem_map, List.getElem_zipWith, List.getElem_drop,
        List.getElem_dropLast, List.getElem_range, hcomm]
      rw [List.getD_eq_getElem vs none hi1, List.getD_eq_getElem vs none hi0]
      exact sign_cell _ _
  unfold signRow signRowSpec
  rw [List.map_cons, List.map_map]
  rw [show fill1 (some 1) = some 1 from by simp [fill1]]
  exact congrArg (List.cons (some 1)) htail

/-- Claim C3: the sign table derived from an annotation table has the
same date columns and the same model rows, each row being 1 in the
first date column and, at every later date `d`, the sign (in
{-1, 0, 1}) of `responses[d] - responses[d-1]`, with any comparison
involving a missing value resolving to 1 (`signRowSpec` is exactly
that row description). -/
theorem c3_sign_table :
    ∀ (p : Pivot), p.dates ≠ [] →
      (∀ r ∈ p.rows, r.2.length = p.dates.length) →
      (create_sign_df p).dates = p.dates
      ∧ (create_sign_df p).rows
          = p.rows.map (fun r => (r.1, signRowSpec r.2)) := by
  intro p hd hlen
  refine ⟨rfl, ?_⟩
  simp only [create_sign_df]
  apply List.map_congr_left
  intro r hr
  have hne : r.2 ≠ [] := by
    intro h0
    have hl := hlen r hr
    rw [h0] at hl
    exact hd (List.length_eq_zero.mp hl.symm)
  rw [signRow_eq_spec r.2 hne]

/-- Witness for claim C3 on the concrete annotation table `exP3`
(two models, three dates, missing cells): the sign table keeps the
dates and rows and each row follows the spec's sign description. -/
theorem c3_sign_table_witness :
    (create_sign_df exP3).dates = exP3.dates
    ∧ (create_sign_df exP3).rows
        = exP3.rows.map (fun r => (r.1, signRowSpec r.2)) :=
  c3_sign_table exP3 (by decide) (by decide)

theorem length_mergePredOntoModels (models : List ModelRow) (ps : List PredRow) :
    (mergePredOntoModels models ps).length
      = (models.map (fun m =>
          max 1 (ps.countP (fun p => p.modelID == m.modelID)))).sum := by
  induction models with
  | nil => simp [mergePredOntoModels]
  | cons m ms ih =>
    rw [mergePredOntoModels, List.length_append, ih, List.map_cons,
      List.sum_cons]
    congr 1
    by_cases he : (ps.filter (fun p => p.modelID == m.modelID)).isEmpty = true
    · rw [if_pos he]
      have h0 : ps.countP (fun p => p.modelID == m.modelID) = 0 := by
        rw [List.countP_eq_length_filter]
        rw [List.isEmpty_iff] at he
        rw [he]
        rfl
      simp [h0]
    · rw [if_neg he]
      rw [List.length_map, List.countP_eq_length_filter]
      rw [List.isEmpty_iff] at he
      have hpos : 0 < (ps.filter (fun p => p.modelID == m.modelID)).length := by
        cases hf : ps.filter (fun p => p.modelID == m.modelID) with
        | nil => exact absurd hf he
        | cons x xs => simp [hf]
      omega

theorem provenance_mergePredOntoModels (models : List ModelRow)
    (ps : List PredRow) :
    ∀ r ∈ mergePredOntoModels models ps,
      mergedRowProvenance models ps r = true := by
  induction models with
  | nil => simp [mergePredOntoModels]
  | cons m ms ih =>
    intro r hr
    rw [mergePredOntoModels] at hr
    rcases List.mem_append.mp hr with hr | hr
    · by_cases he : (ps.filter (fun p => p.modelID == m.modelID)).isEmpty = true
      · rw [if_pos he] at hr
        rcases List.mem_singleton.mp hr with rfl
        unfold mergedRowProvenance
        apply List.any_eq_true.mpr
        refine ⟨m, List.mem_cons_self m ms, ?_⟩
        simp
      · rw [if_neg he] at hr
        rcases List.mem_map.mp hr with ⟨p, hp, rfl⟩
        rcases List.mem_filter.mp hp with ⟨hps, hpid⟩
        unfold mergedRowProvenance
        apply List.any_eq_true.mpr
        refine ⟨m, List.mem_cons_self m ms, ?_⟩
        simp only [decide_true_eq_true, Bool.and_true, Bool.true_and,
          decide_eq_true_eq]
        simp [List.any_eq_true]
        exact ⟨p, hps, by simpa using hpid, rfl⟩
    · have htail := ih r hr
      unfold mergedRowProvenance at htail ⊢
      rw [List.any_eq_true] at htail ⊢
      rcases htail with ⟨m2, hm2, hcond⟩
      exact ⟨m2, List.mem_cons_of_mem m hm2, hcond⟩

/-- Claim C1 (amended): `latestPredModel` groups the predictor-bin
records by (model ID, predictor name), keeps the records with the
maximum snapshot time per group, computes the bin propensity, and
left-joins `dfModel` — all model snapshots, not `LatestPerModel` —
with the result on model ID.  Its row count is the sum over `dfModel`
rows of max(1, number of kept predictor records carrying that row's
model ID); every output row's model columns come from a `dfModel` row
and its predictor columns are missing or come from a kept predictor
record with that model ID, so predictor rows whose model ID matches
no model row are dropped. -/
theorem c1_latest_pred_model_amended :
    ∀ (models : List ModelRow) (preds : List PredRow),
      (latestPredModelOf models preds).length
        = (models.map (fun m =>
            max 1 ((keptPredsWithProp preds).countP
              (fun p => p.modelID == m.modelID)))).sum
      ∧ ((keptPredsOf preds).all (fun p =>
          p.predSnapshot == groupMaxSnap preds p.modelID p.predName) = true)
      ∧ ((latestPredModelOf models preds).all
          (mergedRowProvenance models (keptPredsWithProp preds)) = true) := by
  intro models preds
  refine ⟨length_mergePredOntoModels models _, ?_, ?_⟩
  · apply List.all_eq_true.mpr
    intro p hp
    unfold keptPredsOf at hp
    simpa using (List.mem_filter.mp hp).2
  · apply List.all_eq_true.mpr
    intro r hr
    exact provenance_mergePredOntoModels models _ r hr

/-- Counterexample to claim C1 as stated: in `exADM1` the
`latestPredModel` row count is 2 — the single kept predictor row is
repeated for both snapshot rows of its model ID because the left join
targets `dfModel`, not `LatestPerModel` — while the number of
distinct (model ID, predictor name) pairs in the predictor input
is 1. -/
theorem c1_counterexample :
    exADM1.map (fun a =>
      decide (a.latestPredModel.length = numDistinctPredPairs a.predRows))
      = Except.ok false := by
  rfl

theorem map_ne_nil (f : α → β) (l : List α) (h : l ≠ []) : l.map f ≠ [] := by
  cases l with
  | nil => exact absurd rfl h
  | cons a as => simp

theorem sortByKey_ne_nil (key : α → Int) (l : List α) (h : l ≠ []) :
    sortByKey key l ≠ [] := by
  intro h0
  have hp := perm_sortByKey key l
  rw [h0] at hp
  exact h hp.symm.eq_nil

theorem heatmapRows_eq_nil_iff (m : ModelReportS) (query : Query) :
    heatmapRows m query = [] ↔ apply_query query m.dfModel = [] := by
  unfold heatmapRows
  constructor
  · intro h
    have hs : sortByKey (fun r : QRow => r.snapshot)
        (apply_query query m.dfModel) = [] := List.map_eq_nil_iff.mp h
    by_contra hne
    exact sortByKey_ne_nil _ _ hne hs
  · intro h
    rw [h]
    rfl

theorem dedupSortInt_const (l : List Int) (d : Int) (hne : l ≠ [])
    (h : ∀ x ∈ l, x = d) : dedupSortInt l = [d] := by
  induction l with
  | nil => exact absurd rfl hne
  | cons x xs ih =>
    have hx : x = d := h x (List.mem_cons_self x xs)
    subst hx
    cases xs with
    | nil => simp [dedupSortInt, insertUniqueInt]
    | cons y ys =>
      have hxs : dedupSortInt (y :: ys) = [x] :=
        ih (by simp) (fun z hz => h z (List.mem_cons_of_mem _ hz))
      rw [dedupSortInt, hxs]
      simp [insertUniqueInt, lt_irrefl]

theorem heatmapKept_ne_nil (df : List HRow) (h : df ≠ []) :
    heatmapKept df ≠ [] := by
  rcases List.exists_mem_of_ne_nil df h with ⟨a, ha⟩
  have hGne : df.filter
      (fun r => r.modelName == a.modelName && r.date == a.date) ≠ [] :=
    List.ne_nil_of_mem (List.mem_filter.mpr ⟨ha, by simp⟩)
  have hmaxmem : maxIntList ((df.filter
        (fun r => r.modelName == a.modelName && r.date == a.date)).map
          (fun r => r.snapshot))
      ∈ (df.filter
        (fun r => r.modelName == a.modelName && r.date == a.date)).map
          (fun r => r.snapshot) :=
    maxIntList_mem _ (map_ne_nil _ _ hGne)
  rcases List.mem_map.mp hmaxmem with ⟨g, hgG, hgsnap⟩
  rcases List.mem_filter.mp hgG with ⟨hgdf, hgcond⟩
  simp only [Bool.and_eq_true, beq_iff_eq] at hgcond
  obtain ⟨hgn, hgd⟩ := hgcond
  apply List.ne_nil_of_mem (a := g)
  unfold heatmapKept
  apply List.mem_filter.mpr
  refine ⟨hgdf, ?_⟩
  unfold groupMaxHR
  rw [hgn, hgd]
  simp [hgsnap]

theorem pivotHM_single_date (rows : List FRow) (d : Int) (hne : rows ≠ [])
    (hd : ∀ r ∈ rows, r.date = d) :
    (pivotHM rows).dates = [d]
    ∧ ∀ p2 ∈ (pivotHM rows).rows, ∃ c, p2.2 = [c] := by
  have hds : dedupSortInt (rows.map (fun r => r.date)) = [d] :=
    dedupSortInt_const _ d (map_ne_nil _ _ hne)
      (by intro x hx
          rcases List.mem_map.mp hx with ⟨r, hr, rfl⟩
          exact hd r hr)
  refine ⟨hds, ?_⟩
  intro p2 hp2
  have hp2m : p2 ∈ (dedupSortStr (rows.map (fun r => r.modelName))).map
      (fun n => (n, (dedupSortInt (rows.map (fun r => r.date))).map
        (fun d2 => ((rows.find? (fun r => r.modelName == n && r.date == d2)).bind
          (fun r => r.responses))))) := hp2
  rcases List.mem_map.mp hp2m with ⟨n, hn, rfl⟩
  refine ⟨(rows.find? (fun r => r.modelName == n && r.date == d)).bind
    (fun r => r.responses), ?_⟩
  show (dedupSortInt (rows.map (fun r => r.date))).map
      (fun d2 => ((rows.find? (fun r => r.modelName == n && r.date == d2)).bind
        (fun r => r.responses))) = _
  rw [hds]
  rfl

theorem create_sign_single (a : Pivot)
    (h1 : ∀ p2 ∈ a.rows, ∃ c, p2.2 = [c]) :
    (create_sign_df a).dates = a.dates
    ∧ (create_sign_df a).rows.map Prod.fst = a.rows.map Prod.fst
    ∧ ∀ q2 ∈ (create_sign_df a).rows, q2.2 = [some 1] := by
  refine ⟨rfl, ?_, ?_⟩
  · show (a.rows.map (fun r => (r.1, signRow r.2))).map Prod.fst
      = a.rows.map Prod.fst
    rw [List.map_map]
    apply List.map_congr_left
    intro r _
    rfl
  · intro q2 hq2
    have hq2m : q2 ∈ a.rows.map (fun r => (r.1, signRow r.2)) := hq2
    rcases List.mem_map.mp hq2m with ⟨r, hr, rfl⟩
    rcases h1 r hr with ⟨c, hc⟩
    show signRow r.2 = [some 1]
    rw [hc]
    rfl

/-- A one-row report whose lookback window is empty at
`lookback = 0`, used by the C5 theorems. -/
def exM5w : ModelReportS := ⟨[⟨"i9", "m9", 1, 5, 0, 40, 0⟩], []⟩

/-- A single-model, single-day report with distinct snapshot times,
used by the C4 and C5 witnesses: both snapshots fall on calendar
day 0. -/
def exM4w : ModelReportS :=
  ⟨[⟨"i1", "m1", 0, 3, 0, 100, 0⟩, ⟨"i1", "m1", 0, 4, 0, 75000, 0⟩], []⟩

/-- Claim C5 (amended): on an empty selected frame
`generate_heatmap_df` raises the nan-minus-timedelta `TypeError`
instead of returning; when the frame is non-empty but the lookback
window retains no record it does not raise — it prints an
informational no-data message and returns a single empty dataframe,
not a pair — and when the window retains records (and no two records
share a (model name, snapshot) pair, keeping the pivot index
duplicate-free as the pivot model assumes) it returns the
`(annotate, sign)` pair. -/
theorem c5_no_data_result :
    ∀ (m : ModelReportS) (lookback : Int) (query : Query) (fill : Bool),
      (apply_query query m.dfModel = [] →
        generate_heatmap_df m lookback query fill
          = Except.error nanTimedeltaMsg)
      ∧ (generate_heatmap_df m lookback query fill
            = Except.ok HeatmapResult.noData
          ↔ (apply_query query m.dfModel ≠ []
              ∧ heatmapWindow m lookback query = []))
      ∧ ((m.dfModel.map (fun r => (r.modelName, r.snapshot))).Nodup →
          heatmapWindow m lookback query ≠ [] →
          Except.map isTables (generate_heatmap_df m lookback query fill)
            = Except.ok true) := by
  intro m lookback query fill
  by_cases hf : apply_query query m.dfModel = []
  · have hrows : heatmapRows m query = [] :=
      (heatmapRows_eq_nil_iff m query).mpr hf
    have hwe : heatmapWindowE m lookback query
        = Except.error nanTimedeltaMsg := by
      unfold heatmapWindowE
      rw [if_pos hrows]
    have hgen : generate_heatmap_df m lookback query fill
        = Except.error nanTimedeltaMsg := by
      unfold generate_heatmap_df
      rw [hwe]
      rfl
    refine ⟨fun _ => hgen, ?_, ?_⟩
    · rw [hgen]
      simp [hf]
    · intro _hnd hw
      exfalso
      apply hw
      unfold heatmapWindow
      rw [hrows]
      rfl
  · have hrows : heatmapRows m query ≠ [] := by
      intro h0
      exact hf ((heatmapRows_eq_nil_iff m query).mp h0)
    have hwe : heatmapWindowE m lookback query
        = Except.ok (heatmapWindow m lookback query) := by
      unfold heatmapWindowE
      rw [if_neg hrows]
    refine ⟨fun h0 => absurd h0 hf, ?_, ?_⟩
    · unfold generate_heatmap_df
      rw [hwe]
      cases hw : heatmapWindow m lookback query with
      | nil => simp [Except.map, hf]
      | cons a as => simp [Except.map]
    · intro _hnd hw
      unfold generate_heatmap_df
      rw [hwe]
      cases hwc : heatmapWindow m lookback query with
      | nil => exact absurd hwc hw
      | cons a as => simp [Except.map, isTables]

/-- Counterexample to claim C5 as stated ("always returns the pair;
when the lookback window leaves no records it does not raise but
produces an empty result"): on `exM5w` with `lookback = 0` the window
is empty and the result is the single empty no-data dataframe, not a
pair; and on `exM5` (empty frame) the source raises the
nan-minus-timedelta `TypeError` instead of returning at all. -/
theorem c5_counterexample :
    generate_heatmap_df exM5w 0 [] true = Except.ok HeatmapResult.noData
    ∧ generate_heatmap_df exM5 15 [] true = Except.error nanTimedeltaMsg :=
  ⟨by rfl, by rfl⟩

/-- Witness for the amended claim C5, exercising the three branches:
the empty-frame error on `exM5`, the no-data return on `exM5w` with
an empty window, and the table pair on `exM4w` with a retained
window. -/
theorem c5_no_data_result_witness :
    generate_heatmap_df exM5 15 [] true = Except.error nanTimedeltaMsg
    ∧ generate_heatmap_df exM5w 0 [] true = Except.ok HeatmapResult.noData
    ∧ Except.map isTables (generate_heatmap_df exM4w 1 [] false)
        = Except.ok true :=
  ⟨(c5_no_data_result exM5 15 [] true).1 rfl,
   (c5_no_data_result exM5w 0 [] true).2.1.mpr ⟨by decide, by decide⟩,
   (c5_no_data_result exM4w 1 [] false).2.2 (by decide) (by decide)⟩

/-- Counterexample to claim C4 as stated: with `lookbackDays = 0` the
window filter `Date > Date.max() - timedelta(0)` keeps no record at
all, so on `exM4` — whose records all fall on one calendar day —
`generate_heatmap_df` returns the empty no-data result instead of a
one-column table pair. -/
theorem c4_counterexample :
    generate_heatmap_df exM4 0 [] false = Except.ok HeatmapResult.noData := by
  rfl

/-- Claim C4 (amended): with `lookbackDays = 0` the window filter
`Date > Date.max() - timedelta(0)` is empty and `generate_heatmap_df`
returns the empty no-data result (see the counterexample); the
claimed behaviour holds at `lookbackDays = 1`: on data whose records
all fall on one calendar day and in which no two records share a
(model name, snapshot) pair — so the pivot index is duplicate-free
and the source's `df.pivot` does not raise — it returns a one-column
annotation table and a sign table whose sole column is all 1. -/
theorem c4_one_day_amended :
    ∀ (m : ModelReportS) (d : Int),
      m.dfModel ≠ [] →
      (m.dfModel.map (fun r => (r.modelName, r.snapshot))).Nodup →
      (∀ r ∈ m.dfModel, dateOf r.snapshot = d) →
      Except.map isOneColAllOnes (generate_heatmap_df m 1 [] false)
        = Except.ok true := by
  intro m d hne _hnd hdate
  have hqne : apply_query [] m.dfModel ≠ [] := by
    show m.dfModel.map dropModelID ≠ []
    exact map_ne_nil _ _ hne
  have hrne : heatmapRows m [] ≠ [] := by
    intro h0
    exact hqne ((heatmapRows_eq_nil_iff m []).mp h0)
  have hrdate : ∀ r ∈ heatmapRows m [], r.date = d := by
    intro r hr
    have hr2 : r ∈ (sortByKey (fun r : QRow => r.snapshot)
        (apply_query [] m.dfModel)).map
      (fun r => HRow.mk r.modelName r.snapshot r.responses
        (dateOf r.snapshot)) := hr
    rcases List.mem_map.mp hr2 with ⟨q0, hq0, rfl⟩
    have hq0m : q0 ∈ apply_query [] m.dfModel := (mem_sortByKey _ q0 _).mp hq0
    have hq0m2 : q0 ∈ m.dfModel.map dropModelID := hq0m
    rcases List.mem_map.mp hq0m2 with ⟨mr, hmr, rfl⟩
    exact hdate mr hmr
  have hmax : maxIntList ((heatmapRows m []).map (fun x => x.date)) = d :=
    maxIntList_const _ d (map_ne_nil _ _ hrne)
      (by intro x hx
          rcases List.mem_map.mp hx with ⟨r, hr, rfl⟩
          exact hrdate r hr)
  have hwin : heatmapWindow m 1 [] = heatmapRows m [] := by
    unfold heatmapWindow
    apply List.filter_eq_self.mpr
    intro r hr
    rw [hmax, hrdate r hr]
    exact decide_eq_true (by omega)
  have hwe : heatmapWindowE m 1 [] = Except.ok (heatmapRows m []) := by
    unfold heatmapWindowE
    rw [if_neg hrne, hwin]
  have hkne : heatmapKept (heatmapRows m []) ≠ [] := heatmapKept_ne_nil _ hrne
  have hkdate : ∀ r ∈ heatmapKept (heatmapRows m []), r.date = d := by
    intro r hr
    exact hrdate r (List.mem_of_mem_filter hr)
  have hfne : heatmapFilled false (heatmapKept (heatmapRows m [])) ≠ [] :=
    map_ne_nil _ _ hkne
  have hfdate : ∀ f ∈ heatmapFilled false (heatmapKept (heatmapRows m [])),
      f.date = d := by
    intro f hf
    have hf2 : f ∈ (heatmapKept (heatmapRows m [])).map
        (fun r => FRow.mk r.modelName r.date (some (r.responses : Rat))) := hf
    rcases List.mem_map.mp hf2 with ⟨r, hr, rfl⟩
    exact hkdate r hr
  have hA := pivotHM_single_date _ d hfne hfdate
  have hS := create_sign_single _ hA.2
  have hlen : ¬ ((heatmapRows m []).length < 1) := by
    have h0 : (heatmapRows m []).length ≠ 0 := by
      intro h1
      exact hrne (List.length_eq_zero.mp h1)
    omega
  unfold generate_heatmap_df
  rw [hwe]
  simp only [Except.map]
  rw [if_neg hlen]
  apply congrArg Except.ok
  unfold isOneColAllOnes
  simp only [Bool.and_eq_true, decide_eq_true_eq, List.all_eq_true]
  refine ⟨⟨⟨?_, ?_⟩, ?_⟩, ?_⟩
  · rw [hA.1]
    rfl
  · exact hS.1
  · exact hS.2.1
  · intro r2 hr2
    exact hS.2.2 r2 hr2

/-- Witness for the amended claim C4: on `exM4w` (all records on
calendar day 0, distinct snapshots) `generate_heatmap_df` with
`lookbackDays = 1` yields a one-column annotation table and an all-1
sign table. -/
theorem c4_one_day_amended_witness :
    Except.map isOneColAllOnes (generate_heatmap_df exM4w 1 [] false)
      = Except.ok true :=
  c4_one_day_amended exM4w 0 (by decide) (by decide) (by decide)

/-- Claim C8 (amended): `show_score_distribution` restricts
`latestPredModel` to the rows whose predictor name — not entry type —
is `'Classifier'`, and `show_predictor_report` to the given model's
rows whose predictor name is not `'Classifier'` (missing predictor
names pass the `!=` test); the optional allow-lists only filter
further by model name (respectively predictor name), and the
selections perform no other transformation: each equals a single
filter of `latestPredModel`. -/
theorem c8_select_distribution :
    ∀ (adm : ADMReportS) (models : Option (List String))
      (model_name : String) (predictors : Option (List String)),
      show_score_distribution_data adm models
        = adm.latestPredModel.filter
            (fun r => predNameIsClassifier r && allowModelB models r)
      ∧ show_predictor_report_data adm model_name predictors
        = adm.latestPredModel.filter
            (fun r => (r.modelName == model_name && !(predNameIsClassifier r))
              && allowPredB predictors r) := by
  intro adm models model_name predictors
  constructor
  · cases models with
    | none =>
      have hfun : (fun r => predNameIsClassifier r && allowModelB none r)
          = predNameIsClassifier := by
        funext r
        simp [allowModelB]
      rw [hfun]
      rfl
    | some ms =>
      cases ms with
      | nil =>
        have hfun : (fun r => predNameIsClassifier r && allowModelB (some []) r)
            = predNameIsClassifier := by
          funext r
          simp [allowModelB]
        rw [hfun]
        rfl
      | cons m mtail =>
        show (adm.latestPredModel.filter predNameIsClassifier).filter
            (fun r => (m :: mtail).contains r.modelName) = _
        rw [filter_and]
        rfl
  · cases predictors with
    | none =>
      have hfun : (fun r : MergedRow =>
            (r.modelName == model_name && !(predNameIsClassifier r))
              && allowPredB none r)
          = (fun r : MergedRow =>
            r.modelName == model_name && !(predNameIsClassifier r)) := by
        funext r
        simp [allowPredB]
      rw [hfun]
      rfl
    | some ps =>
      cases ps with
      | nil =>
        have hfun : (fun r : MergedRow =>
              (r.modelName == model_name && !(predNameIsClassifier r))
                && allowPredB (some []) r)
            = (fun r : MergedRow =>
              r.modelName == model_name && !(predNameIsClassifier r)) := by
          funext r
          simp [allowPredB]
        rw [hfun]
        rfl
      | cons p ptail =>
        show (adm.latestPredModel.filter (fun r =>
            r.modelName == model_name && !(predNameIsClassifier r))).filter
            (fun r =>
              match r.pred with
              | some f => (p :: ptail).contains f.predName
              | none => false) = _
        rw [filter_and]
        rfl

/-- Counterexample to claim C8 as stated: in `exADM8` the score
distribution selects by predictor name, not entry type — it keeps a
row whose predictor name is `'Classifier'` but whose entry type is
`'Active'`, so the selection is not the entry-type `'Classifier'`
restriction the claim describes. -/
theorem c8_counterexample :
    exADM8.map (fun a =>
      (show_score_distribution_data a none).all entryTypeIsClassifier)
      = Except.ok false := by
  rfl

end CDH
